import Mathlib

/-!
Verification development for `src/qdrant/seed_qdrant.py`, a one-shot seeding
script: connect to a vector database with unbounded retry, ensure the target
collection exists (creating it with cosine distance and a dimensionality read
from the first record), transform each input record into a point by popping
its `id` and `vectors` fields, and upsert all points in one batch.

The embedding is shallow: JSON values are an inductive type, a parsed record
is an association list (Python dicts have unique keys, which we do not need
to assume), `dict.pop` becomes lookup-plus-removal, the list comprehension
becomes a left-to-right fallible map, and the calls the script issues against
the database client are recorded as an explicit trace so that claims about
which calls happen (and in which order, with which arguments) are statable.
Applying the trace to a database state gives the frame properties.
-/

namespace SeedQdrant

/-- JSON-like values as loaded by `json.load`.  The script treats every value
as opaque except for taking `len` of the first record's `vectors` field, so
scalars, strings and (possibly nested) arrays cover the data model. -/
inductive Val where
  | vnull : Val
  | vbool : Bool → Val
  | vnum : Rat → Val
  | vstr : String → Val
  | varr : List Val → Val

/-- A parsed JSON object: an association list of field name to value. -/
abbrev Record := List (String × Val)

/-- Field access `d[k]` / presence test on a record: the first binding of `k`. -/
def lookupField : Record → String → Option Val
  | [], _ => none
  | (k', v) :: rest, k => if k' = k then some v else lookupField rest k

/-- The record left behind by `d.pop(k)`: every binding of `k` removed (in a
Python dict keys are unique, so this is the removal of the one binding). -/
def removeField : Record → String → Record
  | [], _ => []
  | (k', v) :: rest, k =>
      if k' = k then removeField rest k else (k', v) :: removeField rest k

/-- Errors the script can raise between loading the data and upserting. -/
inductive SeedError where
  | indexError : SeedError
  | keyError : String → SeedError
  | typeError : SeedError
deriving DecidableEq, Repr

/-- Python `len(v)`: defined on strings and arrays, a `TypeError` otherwise. -/
def pyLen : Val → Except SeedError Nat
  | .vstr s => .ok s.length
  | .varr xs => .ok xs.length
  | _ => .error .typeError

/-- `d.pop(k)`: the value bound to `k` together with the shrunken record, or a
`KeyError` when `k` is absent. -/
def popField (r : Record) (k : String) : Except SeedError (Val × Record) :=
  match lookupField r k with
  | none => .error (.keyError k)
  | some v => .ok (v, removeField r k)

/-- The client's point representation: identifier, vector, payload mapping. -/
structure PointStruct where
  id : Val
  vector : Val
  payload : Record

/-- `PointStruct(id=item.pop("id"), vector=item.pop("vectors"), payload=item)`:
pop `id` first, then `vectors` from the already-shrunken record, and the
payload is what remains. -/
def toPoint (item : Record) : Except SeedError PointStruct :=
  match popField item "id" with
  | .error e => .error e
  | .ok (idVal, item₁) =>
    match popField item₁ "vectors" with
    | .error e => .error e
    | .ok (vecVal, item₂) => .ok { id := idVal, vector := vecVal, payload := item₂ }

/-- The list comprehension building `points`: records are transformed in
order, and the first failing record aborts the whole comprehension with no
partial result. -/
def toPoints : List Record → Except SeedError (List PointStruct)
  | [] => .ok []
  | item :: rest =>
    match toPoint item with
    | .error e => .error e
    | .ok p =>
      match toPoints rest with
      | .error e => .error e
      | .ok ps => .ok (p :: ps)

/-- Similarity metrics offered by the client; the script uses `Distance.COSINE`. -/
inductive Distance where
  | cosine : Distance
  | euclid : Distance
  | dot : Distance
deriving DecidableEq, Repr

/-- `VectorParams(size=..., distance=...)` passed to `create_collection`. -/
structure VectorParams where
  size : Nat
  distance : Distance
deriving DecidableEq, Repr

/-- The calls `seed_data` issues against the database client after connecting. -/
inductive DBCall where
  | collectionExists : String → DBCall
  | createCollection : String → VectorParams → DBCall
  | upsert : String → List PointStruct → DBCall

def COLLECTION_NAME : String := "nt-cctv-vehicles"

/-- `vector_size = len(data[0]['vectors'])`: `data[0]` raises `IndexError` on
an empty array, the subscript raises `KeyError` when `vectors` is absent, and
`len` raises `TypeError` on a value with no length. -/
def inferVectorSize : List Record → Except SeedError Nat
  | [] => .error .indexError
  | first :: _ =>
    match lookupField first "vectors" with
    | none => .error (.keyError "vectors")
    | some v => pyLen v

/-- A stored collection: its creation parameters and its current points. -/
structure Collection where
  params : VectorParams
  points : List PointStruct

/-- The external database, abstracted to its named collections. -/
structure DBState where
  collections : List (String × Collection)

/-- `client.collection_exists(name)`. -/
def DBState.collectionExists (st : DBState) (name : String) : Bool :=
  st.collections.any (fun c => c.1 == name)

def DBState.getCollection (st : DBState) (name : String) : Option Collection :=
  (st.collections.find? (fun c => c.1 == name)).map (fun c => c.2)

/-- The points currently stored in a collection (empty when absent). -/
def DBState.pointsOf (st : DBState) (name : String) : List PointStruct :=
  ((st.getCollection name).map Collection.points).getD []

/-- The configuration (dimensionality and metric) of a collection. -/
def DBState.paramsOf (st : DBState) (name : String) : Option VectorParams :=
  (st.getCollection name).map Collection.params

mutual
/-- Structural equality on values, needed only to give upsert its
overwrite-by-identifier semantics. -/
def Val.beq : Val → Val → Bool
  | .vnull, .vnull => true
  | .vbool a, .vbool b => a == b
  | .vnum a, .vnum b => a == b
  | .vstr a, .vstr b => a == b
  | .varr a, .varr b => Val.beqList a b
  | _, _ => false
def Val.beqList : List Val → List Val → Bool
  | [], [] => true
  | a :: as, b :: bs => Val.beq a b && Val.beqList as bs
  | _, _ => false
end

instance : BEq Val := ⟨Val.beq⟩

/-- Upsert one point: overwrite every stored point sharing its identifier, or
append it when the identifier is new. -/
def upsertOne (pts : List PointStruct) (p : PointStruct) : List PointStruct :=
  if pts.any (fun q => q.id == p.id) then
    pts.map (fun q => if q.id == p.id then p else q)
  else pts ++ [p]

/-- Upsert a batch of points into a collection, in order. -/
def applyUpsert (c : Collection) (pts : List PointStruct) : Collection :=
  { c with points := pts.foldl upsertOne c.points }

/-- The database's reaction to one client call. -/
def applyCall (st : DBState) : DBCall → DBState
  | .collectionExists _ => st
  | .createCollection name params =>
      if st.collectionExists name then st
      else { st with collections := st.collections ++ [(name, ⟨params, []⟩)] }
  | .upsert name pts =>
      { st with collections := st.collections.map (fun c =>
          if c.1 == name then (c.1, applyUpsert c.2 pts) else c) }

/-- Outcome of a run: the trace of client calls actually issued, and either
the raised error or the count the final status line reports. -/
structure SeedResult where
  calls : List DBCall
  result : Except SeedError Nat

/-- `seed_data` after the connection loop has succeeded and `data.json` has
been parsed to `data`.  Mirrors the source order: dimensionality inference
first (before any client call), then the existence check and conditional
creation, then the comprehension, then the single batch upsert and the
reported count `len(points)`. -/
def seed_data (st : DBState) (data : List Record) : SeedResult :=
  match inferVectorSize data with
  | .error e => ⟨[], .error e⟩
  | .ok vector_size =>
    let createCalls :=
      if st.collectionExists COLLECTION_NAME then []
      else [DBCall.createCollection COLLECTION_NAME ⟨vector_size, Distance.cosine⟩]
    match toPoints data with
    | .error e => ⟨DBCall.collectionExists COLLECTION_NAME :: createCalls, .error e⟩
    | .ok points =>
        ⟨DBCall.collectionExists COLLECTION_NAME ::
            (createCalls ++ [DBCall.upsert COLLECTION_NAME points]),
         .ok points.length⟩

/-- The database state after the run: the issued calls applied in order. -/
def finalState (st : DBState) (data : List Record) : DBState :=
  (seed_data st data).calls.foldl applyCall st

/-- The connection retry loop, with the probe outcome of attempt `k` (counted
from 0) abstracted as `probe k` and an explicit fuel bound so that divergence
is statable: `none` means the loop is still retrying after `fuel` attempts,
`some n` means the probe first succeeded on attempt `n` (so `n` attempts were
made in total). -/
def connectLoop (probe : Nat → Bool) : Nat → Nat → Option Nat
  | 0, _ => none
  | fuel + 1, k => if probe k then some (k + 1) else connectLoop probe fuel (k + 1)

/-- `r` has a binding for field `k`. -/
def hasField (r : Record) (k : String) : Bool := (lookupField r k).isSome

/-- A record the transformer accepts: both `id` and `vectors` are present. -/
def wellFormed (r : Record) : Bool := hasField r "id" && hasField r "vectors"

/-- The length of the record's `vectors` field when it is an array. -/
def vectorsLen (r : Record) : Option Nat :=
  match lookupField r "vectors" with
  | some (.varr xs) => some xs.length
  | _ => none

lemma lookupField_removeField_self (r : Record) (k : String) :
    lookupField (removeField r k) k = none := by
  induction r with
  | nil => rfl
  | cons kv rest ih =>
    obtain ⟨k', v⟩ := kv
    by_cases h : k' = k
    · simpa [removeField, h] using ih
    · simpa [removeField, lookupField, h] using ih

lemma lookupField_removeField_ne (r : Record) (k k' : String) (h : k' ≠ k) :
    lookupField (removeField r k) k' = lookupField r k' := by
  induction r with
  | nil => rfl
  | cons kv rest ih =>
    obtain ⟨k₀, v⟩ := kv
    by_cases hk : k₀ = k
    · have hne : ¬k₀ = k' := by rw [hk]; exact fun hc => h hc.symm
      simp [removeField, lookupField, hk, hne, Ne.symm h, ih]
    · by_cases hk' : k₀ = k'
      · simp [removeField, lookupField, hk, hk', h]
      · simp [removeField, lookupField, hk, hk', ih]

lemma toPoint_eq (r : Record) (idv vecv : Val)
    (hid : lookupField r "id" = some idv)
    (hvec : lookupField r "vectors" = some vecv) :
    toPoint r = .ok ⟨idv, vecv, removeField (removeField r "id") "vectors"⟩ := by
  have hvec' : lookupField (removeField r "id") "vectors" = some vecv := by
    rw [lookupField_removeField_ne r "id" "vectors" (by decide)]; exact hvec
  simp [toPoint, popField, hid, hvec']

lemma toPoint_ok_of_wellFormed (r : Record) (h : wellFormed r = true) :
    ∃ p, toPoint r = .ok p := by
  rcases Bool.and_eq_true_iff.mp h with ⟨h1, h2⟩
  rcases Option.isSome_iff_exists.mp h1 with ⟨idv, hid⟩
  rcases Option.isSome_iff_exists.mp h2 with ⟨vecv, hvec⟩
  exact ⟨_, toPoint_eq r idv vecv hid hvec⟩

lemma toPoint_error_of_not_wellFormed (r : Record) (h : wellFormed r = false) :
    ∃ e, toPoint r = .error e := by
  rcases Bool.and_eq_false_iff.mp h with h1 | h1
  · have : lookupField r "id" = none := by
      cases hl : lookupField r "id" with
      | none => rfl
      | some v => rw [hasField, hl] at h1; simp at h1
    exact ⟨.keyError "id", by simp [toPoint, popField, this]⟩
  · have hv : lookupField r "vectors" = none := by
      cases hl : lookupField r "vectors" with
      | none => rfl
      | some v => rw [hasField, hl] at h1; simp at h1
    cases hid : lookupField r "id" with
    | none => exact ⟨.keyError "id", by simp [toPoint, popField, hid]⟩
    | some idv =>
      have hv' : lookupField (removeField r "id") "vectors" = none := by
        rw [lookupField_removeField_ne r "id" "vectors" (by decide)]; exact hv
      exact ⟨.keyError "vectors", by simp [toPoint, popField, hid, hv']⟩

lemma toPoints_ok_of_all (data : List Record) (h : data.all wellFormed = true) :
    ∃ pts, toPoints data = .ok pts := by
  induction data with
  | nil => exact ⟨[], rfl⟩
  | cons r rest ih =>
    rw [List.all_cons, Bool.and_eq_true_iff] at h
    rcases toPoint_ok_of_wellFormed r h.1 with ⟨p, hp⟩
    rcases ih h.2 with ⟨ps, hps⟩
    exact ⟨p :: ps, by simp [toPoints, hp, hps]⟩

lemma toPoints_error_of_not_all (data : List Record) (h : data.all wellFormed = false) :
    ∃ e, toPoints data = .error e := by
  induction data with
  | nil => simp at h
  | cons r rest ih =>
    rw [List.all_cons, Bool.and_eq_false_iff] at h
    rcases h with h | h
    · rcases toPoint_error_of_not_wellFormed r h with ⟨e, he⟩
      exact ⟨e, by simp [toPoints, he]⟩
    · rcases ih h with ⟨e, he⟩
      cases hp : toPoint r with
      | error e' => exact ⟨e', by simp [toPoints, hp]⟩
      | ok p => exact ⟨e, by simp [toPoints, hp, he]⟩

lemma toPoints_length (data : List Record) (pts : List PointStruct)
    (h : toPoints data = .ok pts) : pts.length = data.length := by
  induction data generalizing pts with
  | nil => simp [toPoints] at h; simp [← h]
  | cons r rest ih =>
    rw [toPoints] at h
    cases hp : toPoint r with
    | error e => simp [hp] at h
    | ok p =>
      rw [hp] at h
      cases hps : toPoints rest with
      | error e => simp [hps] at h
      | ok ps =>
        rw [hps] at h
        simp at h
        simp [← h, ih ps hps]

lemma toPoints_get (data : List Record) (pts : List PointStruct)
    (h : toPoints data = .ok pts) :
    ∀ i (hi : i < data.length) (hp : i < pts.length),
      toPoint (data.get ⟨i, hi⟩) = .ok (pts.get ⟨i, hp⟩) := by
  induction data generalizing pts with
  | nil => intro i hi; simp at hi
  | cons r rest ih =>
    rw [toPoints] at h
    cases hpr : toPoint r with
    | error e => simp [hpr] at h
    | ok p =>
      rw [hpr] at h
      cases hps : toPoints rest with
      | error e => simp [hps] at h
      | ok ps =>
        rw [hps] at h
        simp at h
        subst h
        intro i hi hp
        cases i with
        | zero => simpa using hpr
        | succ j =>
          exact ih ps hps j (Nat.lt_of_succ_lt_succ hi) (Nat.lt_of_succ_lt_succ hp)

lemma pointsOf_append_empty (l : List (String × Collection)) (n name : String)
    (p : VectorParams) :
    DBState.pointsOf ⟨l ++ [(n, ⟨p, []⟩)]⟩ name = DBState.pointsOf ⟨l⟩ name := by
  induction l with
  | nil =>
    cases h : (n == name) <;>
      simp [DBState.pointsOf, DBState.getCollection, List.find?, h]
  | cons c rest ih =>
    cases h : (c.1 == name) <;>
      simpa [DBState.pointsOf, DBState.getCollection, List.find?, h] using ih

lemma pointsOf_applyCall_create (st : DBState) (n name : String) (p : VectorParams) :
    (applyCall st (DBCall.createCollection n p)).pointsOf name = st.pointsOf name := by
  cases hex : st.collectionExists n with
  | true => simp [applyCall, hex]
  | false =>
    have h := pointsOf_append_empty st.collections n name p
    simpa [applyCall, hex] using h

lemma paramsOf_map_upsert (l : List (String × Collection)) (n name : String)
    (pts : List PointStruct) :
    DBState.paramsOf ⟨l.map (fun c => if c.1 == n then (c.1, applyUpsert c.2 pts) else c)⟩ name
      = DBState.paramsOf ⟨l⟩ name := by
  induction l with
  | nil => rfl
  | cons c rest ih
  =>
    cases hn : (c.1 == n) <;> cases hname : (c.1 == name) <;>
      simpa [DBState.paramsOf, DBState.getCollection, List.find?, hn, hname, applyUpsert]
        using ih

lemma paramsOf_applyCall_upsert (st : DBState) (n name : String) (pts : List PointStruct) :
    (applyCall st (DBCall.upsert n pts)).paramsOf name = st.paramsOf name :=
  paramsOf_map_upsert st.collections n name pts

lemma connectLoop_none (q : Nat → Bool) (hq : ∀ k, q k = false) :
    ∀ fuel k, connectLoop q fuel k = none := by
  intro fuel
  induction fuel with
  | zero => intro k; rfl
  | succ f ih => intro k; simp [connectLoop, hq k, ih]

lemma connectLoop_some (probe : Nat → Bool) (N : Nat)
    (hfail : ∀ k, k < N → probe k = false) (hsucc : probe N = true) :
    ∀ fuel k, k ≤ N → N < k + fuel → connectLoop probe fuel k = some (N + 1) := by
  intro fuel
  induction fuel with
  | zero => intro k hk hlt; omega
  | succ f ih =>
    intro k hk hlt
    by_cases hkN : k = N
    · subst hkN; simp [connectLoop, hsucc]
    · have hklt : k < N := lt_of_le_of_ne hk hkN
      simp only [connectLoop, hfail k hklt, Bool.false_eq_true, if_false]
      exact ih (k + 1) hklt (by omega)

/-- Claim C1: for every valid non-empty input array of records with uniform
vector length, the points given to the upsert call are as many as the input
records, and the reported final count equals that number. -/
theorem C1_upsert_count (st : DBState) (data : List Record) (d : Nat)
    (hne : data ≠ [])
    (hwf : data.all wellFormed = true)
    (hunif : data.all (fun r => vectorsLen r == some d) = true) :
    ∃ pts : List PointStruct,
      DBCall.upsert COLLECTION_NAME pts ∈ (seed_data st data).calls ∧
      pts.length = data.length ∧
      (seed_data st data).result = .ok data.length := by
  obtain ⟨first, rest, rfl⟩ := List.exists_cons_of_ne_nil hne
  rcases toPoints_ok_of_all _ hwf with ⟨pts, hpts⟩
  have hlen := toPoints_length _ _ hpts
  rw [List.all_cons, Bool.and_eq_true_iff] at hunif
  have hv : vectorsLen first = some d := eq_of_beq hunif.1
  have hinf : inferVectorSize (first :: rest) = .ok d := by
    unfold vectorsLen at hv
    cases hl : lookupField first "vectors" with
    | none => rw [hl] at hv; simp at hv
    | some v =>
      rw [hl] at hv
      cases v with
      | vnull => simp at hv
      | vbool b => simp at hv
      | vnum q => simp at hv
      | vstr s => simp at hv
      | varr xs =>
        simp at hv
        simp [inferVectorSize, hl, pyLen, hv]
  refine ⟨pts, ?_, hlen, ?_⟩
  · cases hex : st.collectionExists COLLECTION_NAME <;>
      simp [seed_data, hinf, hpts, hex]
  · simp [seed_data, hinf, hpts, hlen]

/-- Claim C1 witness: the two-record example input from the specification,
with integer-scaled vector entries. -/
theorem C1_upsert_count_witness :
    ∃ pts : List PointStruct,
      DBCall.upsert COLLECTION_NAME pts ∈
        (seed_data ⟨[]⟩
          [[("id", Val.vnum 1), ("vectors", Val.varr [Val.vnum (1/10), Val.vnum (2/10)]),
            ("cam", Val.vstr "A")],
           [("id", Val.vnum 2), ("vectors", Val.varr [Val.vnum (3/10), Val.vnum (4/10)]),
            ("cam", Val.vstr "B")]]).calls ∧
      pts.length =
        ([[("id", Val.vnum 1), ("vectors", Val.varr [Val.vnum (1/10), Val.vnum (2/10)]),
            ("cam", Val.vstr "A")],
          [("id", Val.vnum 2), ("vectors", Val.varr [Val.vnum (3/10), Val.vnum (4/10)]),
            ("cam", Val.vstr "B")]] : List Record).length ∧
      (seed_data ⟨[]⟩
          [[("id", Val.vnum 1), ("vectors", Val.varr [Val.vnum (1/10), Val.vnum (2/10)]),
            ("cam", Val.vstr "A")],
           [("id", Val.vnum 2), ("vectors", Val.varr [Val.vnum (3/10), Val.vnum (4/10)]),
            ("cam", Val.vstr "B")]]).result = .ok 2 :=
  C1_upsert_count ⟨[]⟩
    [[("id", Val.vnum 1), ("vectors", Val.varr [Val.vnum (1/10), Val.vnum (2/10)]),
      ("cam", Val.vstr "A")],
     [("id", Val.vnum 2), ("vectors", Val.varr [Val.vnum (3/10), Val.vnum (4/10)]),
      ("cam", Val.vstr "B")]] 2
    (List.cons_ne_nil _ _) rfl rfl

/-- Claim C2: the transform puts the record's `id` value into the point's
identifier, its `vectors` value into the point's vector, and the payload is
exactly the remaining fields with unchanged values; `id` and `vectors` are
absent from the payload. -/
theorem C2_transform_placement (r : Record) (idv vecv : Val)
    (hid : lookupField r "id" = some idv)
    (hvec : lookupField r "vectors" = some vecv) :
    ∃ p : PointStruct, toPoint r = .ok p ∧ p.id = idv ∧ p.vector = vecv ∧
      lookupField p.payload "id" = none ∧
      lookupField p.payload "vectors" = none ∧
      ∀ k, k ≠ "id" → k ≠ "vectors" → lookupField p.payload k = lookupField r k := by
  refine ⟨_, toPoint_eq r idv vecv hid hvec, rfl, rfl, ?_, ?_, ?_⟩
  · rw [lookupField_removeField_ne _ "vectors" "id" (by decide)]
    exact lookupField_removeField_self r "id"
  · exact lookupField_removeField_self _ "vectors"
  · intro k hk1 hk2
    rw [lookupField_removeField_ne _ "vectors" k hk2,
        lookupField_removeField_ne _ "id" k hk1]

/-- Claim C2 witness: the transform applied to a concrete three-field record. -/
theorem C2_transform_placement_witness :
    ∃ p : PointStruct,
      toPoint [("id", Val.vnum 1), ("vectors", Val.varr [Val.vnum 1]),
               ("cam", Val.vstr "A")] = .ok p ∧
      p.id = Val.vnum 1 ∧ p.vector = Val.varr [Val.vnum 1] ∧
      lookupField p.payload "id" = none ∧
      lookupField p.payload "vectors" = none ∧
      ∀ k, k ≠ "id" → k ≠ "vectors" →
        lookupField p.payload k =
          lookupField [("id", Val.vnum 1), ("vectors", Val.varr [Val.vnum 1]),
                       ("cam", Val.vstr "A")] k :=
  C2_transform_placement
    [("id", Val.vnum 1), ("vectors", Val.varr [Val.vnum 1]), ("cam", Val.vstr "A")]
    (Val.vnum 1) (Val.varr [Val.vnum 1]) rfl rfl

/-- Claim C3: when the collection is absent and so gets created, the creation
call carries a vector size equal to the length of the first record's
`vectors` array and the cosine metric, and no other creation call occurs. -/
theorem C3_create_params (st : DBState) (first : Record) (rest : List Record)
    (xs : List Val)
    (hvec : lookupField first "vectors" = some (Val.varr xs))
    (habsent : st.collectionExists COLLECTION_NAME = false) :
    ∃ tail,
      (seed_data st (first :: rest)).calls =
        DBCall.collectionExists COLLECTION_NAME ::
          DBCall.createCollection COLLECTION_NAME ⟨xs.length, Distance.cosine⟩ :: tail ∧
      ∀ n p, DBCall.createCollection n p ∉ tail := by
  have hinf : inferVectorSize (first :: rest) = .ok xs.length := by
    simp [inferVectorSize, hvec, pyLen]
  cases hps : toPoints (first :: rest) with
  | error e =>
    exact ⟨[], by simp [seed_data, hinf, habsent, hps], by simp⟩
  | ok pts =>
    refine ⟨[DBCall.upsert COLLECTION_NAME pts],
      by simp [seed_data, hinf, habsent, hps], ?_⟩
    intro n p h
    simp at h

/-- Claim C3 witness: creation against an empty database with a length-two
first vector. -/
theorem C3_create_params_witness :
    ∃ tail,
      (seed_data ⟨[]⟩
          [[("id", Val.vnum 7), ("vectors", Val.varr [Val.vnum 1, Val.vnum 2])]]).calls =
        DBCall.collectionExists COLLECTION_NAME ::
          DBCall.createCollection COLLECTION_NAME ⟨2, Distance.cosine⟩ :: tail ∧
      ∀ n p, DBCall.createCollection n p ∉ tail :=
  C3_create_params ⟨[]⟩
    [("id", Val.vnum 7), ("vectors", Val.varr [Val.vnum 1, Val.vnum 2])] []
    [Val.vnum 1, Val.vnum 2] rfl rfl

/-- Claim C4 (amended): when some record lacks `id` or `vectors`, the run
raises an error, no upsert call is ever made, and the stored points of every
collection are unchanged — though the database state as a whole need not be:
an absent collection is created before the transformation runs. -/
theorem C4_malformed_aborts (st : DBState) (data : List Record)
    (hbad : data.all wellFormed = false) :
    (∃ e, (seed_data st data).result = .error e) ∧
    (∀ name pts, DBCall.upsert name pts ∉ (seed_data st data).calls) ∧
    (∀ name, (finalState st data).pointsOf name = st.pointsOf name) := by
  rcases toPoints_error_of_not_all data hbad with ⟨e, he⟩
  cases hinf : inferVectorSize data with
  | error e' =>
    refine ⟨⟨e', by simp [seed_data, hinf]⟩, ?_, ?_⟩
    · intro name pts h
      simp [seed_data, hinf] at h
    · intro name
      simp [finalState, seed_data, hinf]
  | ok vs =>
    cases hex : st.collectionExists COLLECTION_NAME with
    | true =>
      refine ⟨⟨e, by simp [seed_data, hinf, hex, he]⟩, ?_, ?_⟩
      · intro name pts h
        simp [seed_data, hinf, hex, he] at h
      · intro name
        simp [finalState, seed_data, hinf, hex, he, applyCall]
    | false =>
      refine ⟨⟨e, by simp [seed_data, hinf, hex, he]⟩, ?_, ?_⟩
      · intro name pts h
        simp [seed_data, hinf, hex, he] at h
      · intro name
        have h1 := pointsOf_applyCall_create st COLLECTION_NAME name ⟨vs, Distance.cosine⟩
        simpa [finalState, seed_data, hinf, hex, he, applyCall] using h1

/-- Claim C4 witness: a single record missing `vectors` aborts with no upsert
and no change to the stored points. -/
theorem C4_malformed_aborts_witness :
    (∃ e, (seed_data ⟨[]⟩ [[("id", Val.vnum 1)]]).result = .error e) ∧
    (∀ name pts, DBCall.upsert name pts ∉ (seed_data ⟨[]⟩ [[("id", Val.vnum 1)]]).calls) ∧
    (∀ name, (finalState ⟨[]⟩ [[("id", Val.vnum 1)]]).pointsOf name =
      DBState.pointsOf ⟨[]⟩ name) :=
  C4_malformed_aborts ⟨[]⟩ [[("id", Val.vnum 1)]] rfl

/-- Claim C4 counterexample: with the target collection absent, a well-formed
first record and a second record lacking `vectors`, the run errors and makes
no upsert, yet the final database state differs from the initial one — the
collection was created (with the inferred configuration) before the
transformation failed, refuting "the database state is unchanged on this
error". -/
theorem C4_state_change_counterexample :
    (∃ e, (seed_data ⟨[]⟩
      [[("id", Val.vnum 1), ("vectors", Val.varr [Val.vnull])],
       [("id", Val.vnum 2)]]).result = .error e) ∧
    (∀ name pts, DBCall.upsert name pts ∉ (seed_data ⟨[]⟩
      [[("id", Val.vnum 1), ("vectors", Val.varr [Val.vnull])],
       [("id", Val.vnum 2)]]).calls) ∧
    (finalState ⟨[]⟩
      [[("id", Val.vnum 1), ("vectors", Val.varr [Val.vnull])],
       [("id", Val.vnum 2)]]).paramsOf COLLECTION_NAME =
        some ⟨1, Distance.cosine⟩ ∧
    DBState.paramsOf ⟨[]⟩ COLLECTION_NAME = none := by
  refine ⟨⟨SeedError.keyError "vectors", rfl⟩, ?_, rfl, rfl⟩
  intro name pts h
  have hc : (seed_data ⟨[]⟩
      [[("id", Val.vnum 1), ("vectors", Val.varr [Val.vnull])],
       [("id", Val.vnum 2)]]).calls =
      [DBCall.collectionExists COLLECTION_NAME,
       DBCall.createCollection COLLECTION_NAME ⟨1, Distance.cosine⟩] := rfl
  rw [hc] at h
  simp at h

/-- Claim C5: on the empty input array the run fails with the index error
from reading the first element, before any client call; in particular no
collection is ever created. -/
theorem C5_empty_input (st : DBState) :
    (seed_data st []).result = .error .indexError ∧
    (seed_data st []).calls = [] ∧
    ∀ n p, DBCall.createCollection n p ∉ (seed_data st []).calls := by
  refine ⟨rfl, rfl, ?_⟩
  intro n p h
  simp [seed_data, inferVectorSize] at h

/-- Claim C5 witness: the empty input against a concrete database state. -/
theorem C5_empty_input_witness :
    (seed_data ⟨[]⟩ []).result = .error .indexError ∧
    (seed_data ⟨[]⟩ []).calls = [] ∧
    ∀ n p, DBCall.createCollection n p ∉ (seed_data ⟨[]⟩ []).calls :=
  C5_empty_input ⟨[]⟩

/-- Claim C6: when the target collection already exists no creation call is
made, and the configuration (size and metric) of every collection — in
particular the pre-existing one — is unchanged by the run. -/
theorem C6_existing_collection (st : DBState) (data : List Record)
    (hex : st.collectionExists COLLECTION_NAME = true) :
    (∀ n p, DBCall.createCollection n p ∉ (seed_data st data).calls) ∧
    ∀ name, (finalState st data).paramsOf name = st.paramsOf name := by
  cases hinf : inferVectorSize data with
  | error e =>
    refine ⟨?_, ?_⟩
    · intro n p h
      simp [seed_data, hinf] at h
    · intro name
      simp [finalState, seed_data, hinf]
  | ok vs =>
    cases hps : toPoints data with
    | error e =>
      refine ⟨?_, ?_⟩
      · intro n p h
        simp [seed_data, hinf, hex, hps] at h
      · intro name
        simp [finalState, seed_data, hinf, hex, hps, applyCall]
    | ok pts =>
      refine ⟨?_, ?_⟩
      · intro n p h
        simp [seed_data, hinf, hex, hps] at h
      · intro name
        have h1 := paramsOf_applyCall_upsert st COLLECTION_NAME name pts
        simpa [finalState, seed_data, hinf, hex, hps, applyCall] using h1

/-- Claim C6 witness: a database already holding the target collection with a
five-dimensional euclid configuration keeps it verbatim. -/
theorem C6_existing_collection_witness :
    (∀ n p, DBCall.createCollection n p ∉
      (seed_data ⟨[(COLLECTION_NAME, ⟨⟨5, Distance.euclid⟩, []⟩)]⟩
        [[("id", Val.vnum 1), ("vectors", Val.varr [Val.vnum 3])]]).calls) ∧
    ∀ name,
      (finalState ⟨[(COLLECTION_NAME, ⟨⟨5, Distance.euclid⟩, []⟩)]⟩
        [[("id", Val.vnum 1), ("vectors", Val.varr [Val.vnum 3])]]).paramsOf name =
      DBState.paramsOf ⟨[(COLLECTION_NAME, ⟨⟨5, Distance.euclid⟩, []⟩)]⟩ name :=
  C6_existing_collection ⟨[(COLLECTION_NAME, ⟨⟨5, Distance.euclid⟩, []⟩)]⟩
    [[("id", Val.vnum 1), ("vectors", Val.varr [Val.vnum 3])]] rfl

/-- Claim C7: when the first `N` probes fail and probe `N` (0-indexed)
succeeds, the loop makes exactly `N + 1` attempts and proceeds; and a probe
that always fails keeps the loop running past any number of attempts. -/
theorem C7_retry_attempts (probe : Nat → Bool) (N : Nat)
    (hfail : ∀ k, k < N → probe k = false) (hsucc : probe N = true) :
    (∀ fuel, N < fuel → connectLoop probe fuel 0 = some (N + 1)) ∧
    ∀ q : Nat → Bool, (∀ k, q k = false) → ∀ fuel, connectLoop q fuel 0 = none := by
  constructor
  · intro fuel hf
    exact connectLoop_some probe N hfail hsucc fuel 0 (Nat.zero_le N) (by omega)
  · intro q hq fuel
    exact connectLoop_none q hq fuel 0

/-- Claim C7 witness: two failures then a success gives exactly three
attempts, and the all-failing probe is still running after five attempts. -/
theorem C7_retry_attempts_witness :
    connectLoop (fun k => k == 2) 5 0 = some 3 ∧
    connectLoop (fun _ => false) 5 0 = none :=
  ⟨(C7_retry_attempts (fun k => k == 2) 2 (by decide) rfl).1 5 (by decide),
   (C7_retry_attempts (fun k => k == 2) 2 (by decide) rfl).2
     (fun _ => false) (fun _ => rfl) 5⟩

/-- Claim C8: any points handed to an upsert call are exactly the in-order
transforms of the input records: as many points as records, the `i`-th point
being the transform of the `i`-th record. -/
theorem C8_upsert_order (st : DBState) (data : List Record) (name : String)
    (pts : List PointStruct)
    (h : DBCall.upsert name pts ∈ (seed_data st data).calls) :
    toPoints data = .ok pts ∧ pts.length = data.length ∧
    ∀ i (hi : i < data.length) (hp : i < pts.length),
      toPoint (data.get ⟨i, hi⟩) = .ok (pts.get ⟨i, hp⟩) := by
  cases hinf : inferVectorSize data with
  | error e => simp [seed_data, hinf] at h
  | ok vs =>
    cases hps : toPoints data with
    | error e =>
      cases hex : st.collectionExists COLLECTION_NAME <;>
        simp [seed_data, hinf, hps, hex] at h
    | ok pts' =>
      have hpts : pts = pts' := by
        cases hex : st.collectionExists COLLECTION_NAME <;>
          simp [seed_data, hinf, hps, hex] at h <;>
          exact h.2
      subst hpts
      exact ⟨rfl, toPoints_length data pts hps, toPoints_get data pts hps⟩

/-- Claim C8 witness: the single-record input, whose upsert call carries the
single transformed point. -/
theorem C8_upsert_order_witness :
    toPoints [[("id", Val.vnum 1), ("vectors", Val.varr [Val.vnull])]] =
      .ok [⟨Val.vnum 1, Val.varr [Val.vnull], []⟩] ∧
    ([⟨Val.vnum 1, Val.varr [Val.vnull], []⟩] : List PointStruct).length =
      ([[("id", Val.vnum 1), ("vectors", Val.varr [Val.vnull])]] : List Record).length ∧
    ∀ i (hi : i < ([[("id", Val.vnum 1), ("vectors", Val.varr [Val.vnull])]] :
        List Record).length)
      (hp : i < ([⟨Val.vnum 1, Val.varr [Val.vnull], []⟩] : List PointStruct).length),
      toPoint (([[("id", Val.vnum 1), ("vectors", Val.varr [Val.vnull])]] :
          List Record).get ⟨i, hi⟩) =
        .ok (([⟨Val.vnum 1, Val.varr [Val.vnull], []⟩] : List PointStruct).get ⟨i, hp⟩) :=
  C8_upsert_order ⟨[]⟩ [[("id", Val.vnum 1), ("vectors", Val.varr [Val.vnull])]]
    COLLECTION_NAME [⟨Val.vnum 1, Val.varr [Val.vnull], []⟩]
    (List.Mem.tail _ (List.Mem.tail _ (List.Mem.head _)))

/-- Claim C9: the first record's `vectors` length is read before any client
call, so an empty input or a first record without `vectors` fails with an
empty call trace — no existence check, no creation, no upsert — whatever the
database state. -/
theorem C9_fail_before_any_call (st : DBState) (data : List Record)
    (h : data = [] ∨ ∃ first rest, data = first :: rest ∧
      lookupField first "vectors" = none) :
    (seed_data st data).calls = [] ∧ ∃ e, (seed_data st data).result = .error e := by
  rcases h with rfl | ⟨first, rest, rfl, hvec⟩
  · exact ⟨rfl, .indexError, rfl⟩
  · have hinf : inferVectorSize (first :: rest) = .error (.keyError "vectors") := by
      simp [inferVectorSize, hvec]
    exact ⟨by simp [seed_data, hinf],
      ⟨SeedError.keyError "vectors", by simp [seed_data, hinf]⟩⟩

/-- Claim C9 witness: the empty input against a database where the target
collection already exists still issues no call at all. -/
theorem C9_fail_before_any_call_witness :
    (seed_data ⟨[(COLLECTION_NAME, ⟨⟨5, Distance.cosine⟩, []⟩)]⟩ []).calls = [] ∧
    ∃ e, (seed_data ⟨[(COLLECTION_NAME, ⟨⟨5, Distance.cosine⟩, []⟩)]⟩ []).result =
      .error e :=
  C9_fail_before_any_call ⟨[(COLLECTION_NAME, ⟨⟨5, Distance.cosine⟩, []⟩)]⟩ []
    (Or.inl rfl)

/-- Claim C10: the transform and the whole run are deterministic — equal
input record lists give equal point lists and equal run outcomes. -/
theorem C10_deterministic (st : DBState) (data₁ data₂ : List Record)
    (h : data₁ = data₂) :
    toPoints data₁ = toPoints data₂ ∧ seed_data st data₁ = seed_data st data₂ := by
  subst h
  exact ⟨rfl, rfl⟩

/-- Claim C10 witness: determinism at a concrete one-record input. -/
theorem C10_deterministic_witness :
    toPoints [[("id", Val.vnum 1), ("vectors", Val.varr [Val.vnum 2])]] =
      toPoints [[("id", Val.vnum 1), ("vectors", Val.varr [Val.vnum 2])]] ∧
    seed_data ⟨[]⟩ [[("id", Val.vnum 1), ("vectors", Val.varr [Val.vnum 2])]] =
      seed_data ⟨[]⟩ [[("id", Val.vnum 1), ("vectors", Val.varr [Val.vnum 2])]] :=
  C10_deterministic ⟨[]⟩ [[("id", Val.vnum 1), ("vectors", Val.varr [Val.vnum 2])]]
    [[("id", Val.vnum 1), ("vectors", Val.varr [Val.vnum 2])]] rfl

end SeedQdrant
